import Mathlib

/-!
Verification development for the Live2D model web previewer.

The core under study is the session controller hook `useLive2D`
(src/components/live2d-viewer/use-live2d.ts) together with the model
catalog (src/lib/live2d-config.ts).  The development shallowly embeds:

* the model catalog and manifest-path derivation;
* the capability extractor (expression / motion list extraction from a
  loaded handle's settings, lines 152-169 of the hook);
* the scale-and-center geometry step of a successful load (lines
  142-147), including the Pixi `width`/`height` getter semantics
  (`width = scale * intrinsic width`);
* the session controller's load / cancel / teardown protocol as a
  small-step transition system over an explicit session state
  (handles are identified by freshly allocated natural numbers, the
  rendering surface's child list is `stage`, and each in-flight
  `loadLive2DModel` run is a `LoadRun` carrying its abort-signal flag);
* the rAF-throttled pointer-move forwarding (lines 231-239).

JavaScript numbers are idealised as rationals (`ℚ`); JS strings are
Lean strings; possibly-`undefined` values are `Option`s.
-/

namespace Live2D

/-! ## Model catalog (src/lib/live2d-config.ts) -/

/-- The closed catalog of model identifiers, in declaration order. -/
def MODEL_NAMES : List String :=
  ["Haru", "Hiyori", "Mao", "Mark", "Natori", "Ren", "Rice", "Wanko"]

/-- The default model selected on mount. -/
def DEFAULT_MODEL : String := "Haru"

/-- Manifest path derivation: `/live2d/{name}/{name}.model3.json`. -/
def getModelPath (name : String) : String :=
  "/live2d/" ++ name ++ "/" ++ name ++ ".model3.json"

/-! ## Settings data and the capability extractor -/

/-- One entry of `settings.expressions`: both field casings may or may
not be present (`Name?: string; name?: string`). -/
structure ExprEntry where
  Name : Option String
  name : Option String
  deriving Repr, DecidableEq

/-- The narrow settings interface the hook reads
(`Live2DSettings`).  `motions` is a JS object whose own key order is
preserved by `Object.entries`; it is embedded as an association list,
with each group's items kept only by count and order (the code never
inspects an item). -/
structure Live2DSettings where
  expressions : Option (List ExprEntry)
  motions : Option (List (String × List Unit))
  deriving Repr, DecidableEq

/-- One extracted motion entry (`MotionEntry` in the hook). -/
structure MotionEntry where
  group : String
  name : String
  index : Nat
  deriving Repr, DecidableEq

/-- JS `a || b` on possibly-undefined strings: `a` is taken when it is
present and truthy (non-empty), otherwise `b`. -/
def jsOrString (a b : Option String) : Option String :=
  match a with
  | some s => if s = "" then b else some s
  | none => b

/-- JS `Boolean(n)` on a possibly-undefined string: `true` exactly for
a present, non-empty string. -/
def truthy : Option String → Bool
  | some s => s != ""
  | none => false

/-- JS `.filter((n): n is string => Boolean(n))`: keep the present,
non-empty strings. -/
def jsFilterTruthy (l : List (Option String)) : List String :=
  l.filterMap fun v => if truthy v then v else none

/-- Expression extraction, lines 154-158 of the hook:
`(settings?.expressions ?? []).map((e) => e.Name || e.name).filter(Boolean)`. -/
def extractExpressions (settings : Option Live2DSettings) : List String :=
  jsFilterTruthy
    (((settings.bind Live2DSettings.expressions).getD []).map
      (fun e => jsOrString e.Name e.name))

/-- The motion entries contributed by one group: for each item, in
order, one entry with the 0-based index and the display label
"group #(index+1)". -/
def motionEntriesOfGroup (group : String) (items : List Unit) : List MotionEntry :=
  (List.range items.length).map fun index =>
    { group := group, name := group ++ " #" ++ toString (index + 1), index := index }

/-- Motion extraction, lines 161-168 of the hook: iterate the groups in
the settings object's own key order, accumulating entries. -/
def extractMotions (settings : Option Live2DSettings) : List MotionEntry :=
  match settings.bind Live2DSettings.motions with
  | none => []
  | some groups =>
      groups.foldl (fun acc p => acc ++ motionEntriesOfGroup p.1 p.2) []

/-! ## Scale-and-center geometry (lines 142-147)

A loaded handle's `width`/`height` follow the Pixi display-object
getter semantics: `width = scale * intrinsic width`.  The code reads
`model.width` once before `scale.set` (scale is 1 on a fresh handle,
so this is the intrinsic width) and once after (so centering uses the
scaled width). -/

/-- Geometry of a model handle: intrinsic size, current scale, position. -/
structure HandleGeom where
  intrinsicW : ℚ
  intrinsicH : ℚ
  scale : ℚ
  x : ℚ
  y : ℚ
  deriving Repr, DecidableEq

/-- Pixi `width` getter: scaled width. -/
def HandleGeom.width (m : HandleGeom) : ℚ := m.scale * m.intrinsicW

/-- Pixi `height` getter: scaled height. -/
def HandleGeom.height (m : HandleGeom) : ℚ := m.scale * m.intrinsicH

/-- A freshly resolved handle: scale 1, at the origin. -/
def freshHandle (w h : ℚ) : HandleGeom :=
  { intrinsicW := w, intrinsicH := h, scale := 1, x := 0, y := 0 }

/-- Lines 142-147 of the hook: compute `scaleX`/`scaleY` from the
pre-`scale.set` width and height, set the scale to
`min(scaleX, scaleY) * 0.8`, then center using the post-`scale.set`
(i.e. scaled) width and height. -/
def scaleAndCenter (W H : ℚ) (m : HandleGeom) : HandleGeom :=
  let scaleX := W / m.width
  let scaleY := H / m.height
  let m1 := { m with scale := min scaleX scaleY * (4 / 5) }
  { m1 with x := (W - m1.width) / 2, y := (H - m1.height) / 2 }

/-! ## The session controller as a transition system

Handles and rendering surfaces are identified by freshly allocated
naturals.  `stage` is the surface's child list (`app.stage`),
`modelRef` is `live2dModelRef.current`, and `pending` holds the
in-flight `loadLive2DModel` runs, each carrying the state of its abort
signal.  All synchronous code between two `await` points of the hook
is one atomic event (JS is single-threaded). -/

/-- One in-flight `loadLive2DModel` run and the state of its abort
signal (`AbortController` issued by the load effect, lines 217-223). -/
structure LoadRun where
  runId : Nat
  modelName : String
  aborted : Bool
  deriving Repr, DecidableEq

/-- The session controller's state.  `destroyed` records every handle
on which `destroy()` has been called; `destroyedApps` the surfaces on
which `destroy(true)` has been called. -/
structure SessionState where
  app : Option Nat
  destroyedApps : List Nat
  stage : List Nat
  modelRef : Option Nat
  pending : List LoadRun
  nextRun : Nat
  nextHandle : Nat
  destroyed : List Nat
  isLoading : Bool
  error : Option String
  expressions : List String
  motions : List MotionEntry
  deriving Repr, DecidableEq

/-- The state right after the Pixi application has been created on
mount: surface 0 is live, nothing attached, no run pending,
`isLoading` starts `true` (line 90), no error. -/
def initialState : SessionState :=
  { app := some 0, destroyedApps := [], stage := [], modelRef := none,
    pending := [], nextRun := 0, nextHandle := 0, destroyed := [],
    isLoading := true, error := none, expressions := [], motions := [] }

/-- Abort every outstanding run's signal (the effect cleanup
`abort.abort()` of the superseded load effect). -/
def abortAll (l : List LoadRun) : List LoadRun :=
  l.map fun r => { r with aborted := true }

/-- Remove a resolved run from the outstanding set. -/
def removeRun (rid : Nat) (l : List LoadRun) : List LoadRun :=
  l.filter fun q => q.runId ≠ rid

/-- Starting a new load: the load effect aborts the superseded run and
invokes `loadLive2DModel`, whose synchronous prefix (lines 119-127)
sets `isLoading = true`, clears the error, and detaches and destroys
the currently attached handle before anything is awaited. -/
def startLoad (name : String) (s : SessionState) : SessionState :=
  { s with
      stage := match s.modelRef with
               | some h => s.stage.filter (fun k => k ≠ h)
               | none => s.stage,
      destroyed := match s.modelRef with
                   | some h => h :: s.destroyed
                   | none => s.destroyed,
      modelRef := none,
      pending := abortAll s.pending ++ [⟨s.nextRun, name, false⟩],
      nextRun := s.nextRun + 1,
      isLoading := true, error := none }

/-- The error message of the catch branch, line 176. -/
def failMessage (name : String) : String :=
  "Failed to load \"" ++ name ++ "\". The model may require a newer Cubism SDK version."

/-- A run finding its signal aborted right after the module import
(line 131): it returns before a handle is ever created. -/
def resolveAbortedEarly (r : LoadRun) (s : SessionState) : SessionState :=
  { s with pending := removeRun r.runId s.pending }

/-- `Live2DModel.from` resolved with a fresh handle (lines 133-169).
If the signal was aborted while the resolution was in flight, the new
handle is destroyed without being attached and the run stops (lines
137-140, skipping line 179).  Otherwise the handle is positioned
(see `scaleAndCenter`), attached, made current, the capability
extractor runs over its settings, and `isLoading` is cleared. -/
def resolveSuccess (r : LoadRun) (settings : Option Live2DSettings)
    (s : SessionState) : SessionState :=
  let h := s.nextHandle
  if r.aborted then
    { s with pending := removeRun r.runId s.pending,
             nextHandle := h + 1, destroyed := h :: s.destroyed }
  else
    { s with pending := removeRun r.runId s.pending,
             nextHandle := h + 1,
             stage := s.stage ++ [h], modelRef := some h,
             expressions := extractExpressions settings,
             motions := extractMotions settings,
             isLoading := false }

/-- The resolution rejected (catch branch, lines 170-179).  An aborted
run returns silently (line 171); otherwise the capability lists are
cleared, the error message names the model, and `isLoading` is
cleared. -/
def resolveFailure (r : LoadRun) (s : SessionState) : SessionState :=
  if r.aborted then
    { s with pending := removeRun r.runId s.pending }
  else
    { s with pending := removeRun r.runId s.pending,
             expressions := [], motions := [],
             error := some (failMessage r.modelName),
             isLoading := false }

/-- Unmount teardown (effect cleanups, lines 208-212 and 222): abort
any outstanding run, destroy the Pixi application if one is live, and
null its ref, so a repeated call finds nothing to destroy. -/
def teardownSession (s : SessionState) : SessionState :=
  { s with
      pending := abortAll s.pending,
      app := none,
      destroyedApps := match s.app with
                       | some a => a :: s.destroyedApps
                       | none => s.destroyedApps }

/-- Small-step relation over session states: a load may start for any
model name at any time; an outstanding run may resolve (early-aborted
return, success, or failure); the session may be torn down. -/
inductive Step : SessionState → SessionState → Prop where
  | start : ∀ (s : SessionState) (name : String),
      Step s (startLoad name s)
  | abortEarly : ∀ (s : SessionState) (r : LoadRun),
      r ∈ s.pending → r.aborted = true → Step s (resolveAbortedEarly r s)
  | success : ∀ (s : SessionState) (r : LoadRun) (settings : Option Live2DSettings),
      r ∈ s.pending → Step s (resolveSuccess r settings s)
  | failure : ∀ (s : SessionState) (r : LoadRun),
      r ∈ s.pending → Step s (resolveFailure r s)
  | teardown : ∀ (s : SessionState),
      Step s (teardownSession s)

/-- States reachable from the post-mount initial state. -/
inductive Reachable : SessionState → Prop where
  | init : Reachable initialState
  | step : ∀ {s t : SessionState}, Reachable s → Step s t → Reachable t

/-- The inductive invariant of the session controller:
at most one handle is on the stage; the stage content is exactly the
current ref; a run whose signal is still valid only exists while the
stage is empty (the synchronous prefix of its load detached the
previous handle, and nothing can have been attached since); at most
one run has a valid signal; handle ids on the stage, in the ref, or
destroyed are all past allocations; destroyed handles are never on the
stage. -/
structure Inv (s : SessionState) : Prop where
  stageLen : s.stage.length ≤ 1
  refAttached : ∀ h, s.modelRef = some h → s.stage = [h]
  noneDetached : s.modelRef = none → s.stage = []
  activeDetached : ∀ r ∈ s.pending, r.aborted = false →
    s.stage = [] ∧ s.modelRef = none
  uniqueActive : ∀ r ∈ s.pending, ∀ q ∈ s.pending,
    r.aborted = false → q.aborted = false → r.runId = q.runId
  stageFresh : ∀ h ∈ s.stage, h < s.nextHandle
  refFresh : ∀ h, s.modelRef = some h → h < s.nextHandle
  destroyedFresh : ∀ h ∈ s.destroyed, h < s.nextHandle
  destroyedOffStage : ∀ h ∈ s.destroyed, h ∉ s.stage

theorem inv_initial : Inv initialState := by
  constructor <;> simp [initialState]

theorem mem_abortAll {l : List LoadRun} {r : LoadRun} (h : r ∈ abortAll l) :
    r.aborted = true := by
  rcases List.mem_map.mp h with ⟨a, _, rfl⟩
  rfl

theorem mem_removeRun {l : List LoadRun} {rid : Nat} {q : LoadRun}
    (h : q ∈ removeRun rid l) : q ∈ l ∧ q.runId ≠ rid := by
  have h2 := List.mem_filter.mp h
  exact ⟨h2.1, by simpa using h2.2⟩

theorem startLoad_stage {s : SessionState} (inv : Inv s) (name : String) :
    (startLoad name s).stage = [] := by
  rcases hm : s.modelRef with _ | h
  · simp [startLoad, hm, inv.noneDetached hm]
  · simp [startLoad, hm, inv.refAttached h hm]

theorem inv_startLoad {s : SessionState} (inv : Inv s) (name : String) :
    Inv (startLoad name s) := by
  have hstage := startLoad_stage inv name
  refine ⟨?_, ?_, ?_, ?_, ?_, ?_, ?_, ?_, ?_⟩
  · simp [hstage]
  · intro h hh
    simp [startLoad] at hh
  · intro _
    exact hstage
  · intro r _ _
    exact ⟨hstage, rfl⟩
  · intro r hr q hq hra hqa
    have hr2 : r ∈ abortAll s.pending ++ [⟨s.nextRun, name, false⟩] := hr
    have hq2 : q ∈ abortAll s.pending ++ [⟨s.nextRun, name, false⟩] := hq
    rcases List.mem_append.mp hr2 with hr3 | hr3
    · exact absurd (mem_abortAll hr3) (by simp [hra])
    · rcases List.mem_append.mp hq2 with hq3 | hq3
      · exact absurd (mem_abortAll hq3) (by simp [hqa])
      · have e1 : r = ⟨s.nextRun, name, false⟩ := by simpa using hr3
        have e2 : q = ⟨s.nextRun, name, false⟩ := by simpa using hq3
        rw [e1, e2]
  · intro h hh
    rw [hstage] at hh
    simp at hh
  · intro h hh
    simp [startLoad] at hh
  · intro h hh
    rcases hm : s.modelRef with _ | k
    · simp only [startLoad, hm] at hh
      exact inv.destroyedFresh h hh
    · simp only [startLoad, hm, List.mem_cons] at hh
      rcases hh with rfl | hh
      · exact inv.refFresh h hm
      · exact inv.destroyedFresh h hh
  · intro h _ hh
    rw [hstage] at hh
    simp at hh

theorem inv_resolveAbortedEarly {s : SessionState} (inv : Inv s) (r : LoadRun) :
    Inv (resolveAbortedEarly r s) := by
  refine ⟨inv.stageLen, inv.refAttached, inv.noneDetached, ?_, ?_,
          inv.stageFresh, inv.refFresh, inv.destroyedFresh, inv.destroyedOffStage⟩
  · intro q hq hqa
    exact inv.activeDetached q (mem_removeRun hq).1 hqa
  · intro a ha b hb haa hba
    exact inv.uniqueActive a (mem_removeRun ha).1 b (mem_removeRun hb).1 haa hba

theorem inv_resolveSuccess {s : SessionState} (inv : Inv s) {r : LoadRun}
    (hr : r ∈ s.pending) (settings : Option Live2DSettings) :
    Inv (resolveSuccess r settings s) := by
  by_cases hab : r.aborted = true
  · -- the superseded branch: the fresh handle is destroyed, nothing attached
    refine ⟨?_, ?_, ?_, ?_, ?_, ?_, ?_, ?_, ?_⟩ <;>
      simp only [resolveSuccess, hab, if_true]
    · exact inv.stageLen
    · exact inv.refAttached
    · exact inv.noneDetached
    · intro q hq hqa
      exact inv.activeDetached q (mem_removeRun hq).1 hqa
    · intro a ha b hb haa hba
      exact inv.uniqueActive a (mem_removeRun ha).1 b (mem_removeRun hb).1 haa hba
    · intro h hh
      exact Nat.lt_succ_of_lt (inv.stageFresh h hh)
    · intro h hh
      exact Nat.lt_succ_of_lt (inv.refFresh h hh)
    · intro h hh
      simp only [List.mem_cons] at hh
      rcases hh with rfl | hh
      · exact Nat.lt_succ_self _
      · exact Nat.lt_succ_of_lt (inv.destroyedFresh h hh)
    · intro h hh
      simp only [List.mem_cons] at hh
      rcases hh with rfl | hh
      · intro hc
        exact absurd (inv.stageFresh _ hc) (Nat.lt_irrefl _)
      · exact inv.destroyedOffStage h hh
  · -- the valid-signal branch: the fresh handle is attached to an empty stage
    have hab2 : r.aborted = false := by
      cases hb : r.aborted
      · rfl
      · exact absurd hb hab
    obtain ⟨hst, href⟩ := inv.activeDetached r hr hab2
    refine ⟨?_, ?_, ?_, ?_, ?_, ?_, ?_, ?_, ?_⟩ <;>
      simp only [resolveSuccess, hab2, Bool.false_eq_true, if_false]
    · simp [hst]
    · intro h hh
      simp only [Option.some.injEq] at hh
      simp [hst, hh]
    · intro hc
      simp at hc
    · intro q hq hqa
      have hq2 := mem_removeRun hq
      exact absurd (inv.uniqueActive r hr q hq2.1 hab2 hqa) hq2.2.symm
    · intro a ha b hb haa hba
      exact inv.uniqueActive a (mem_removeRun ha).1 b (mem_removeRun hb).1 haa hba
    · intro h hh
      simp only [hst, List.nil_append, List.mem_singleton] at hh
      rw [hh]
      exact Nat.lt_succ_self _
    · intro h hh
      simp only [Option.some.injEq] at hh
      rw [hh]
      exact Nat.lt_succ_self _
    · intro h hh
      exact Nat.lt_succ_of_lt (inv.destroyedFresh h hh)
    · intro h hh
      simp only [hst, List.nil_append, List.mem_singleton]
      intro hc
      rw [hc] at hh
      exact absurd (inv.destroyedFresh _ hh) (Nat.lt_irrefl _)

theorem inv_resolveFailure {s : SessionState} (inv : Inv s) {r : LoadRun}
    (_hr : r ∈ s.pending) : Inv (resolveFailure r s) := by
  by_cases hab : r.aborted = true
  · refine ⟨?_, ?_, ?_, ?_, ?_, ?_, ?_, ?_, ?_⟩ <;>
      simp only [resolveFailure, hab, if_true]
    · exact inv.stageLen
    · exact inv.refAttached
    · exact inv.noneDetached
    · intro q hq hqa
      exact inv.activeDetached q (mem_removeRun hq).1 hqa
    · intro a ha b hb haa hba
      exact inv.uniqueActive a (mem_removeRun ha).1 b (mem_removeRun hb).1 haa hba
    · exact inv.stageFresh
    · exact inv.refFresh
    · exact inv.destroyedFresh
    · exact inv.destroyedOffStage
  · have hab2 : r.aborted = false := by
      cases hb : r.aborted
      · rfl
      · exact absurd hb hab
    refine ⟨?_, ?_, ?_, ?_, ?_, ?_, ?_, ?_, ?_⟩ <;>
      simp only [resolveFailure, hab2, Bool.false_eq_true, if_false]
    · exact inv.stageLen
    · exact inv.refAttached
    · exact inv.noneDetached
    · intro q hq hqa
      exact inv.activeDetached q (mem_removeRun hq).1 hqa
    · intro a ha b hb haa hba
      exact inv.uniqueActive a (mem_removeRun ha).1 b (mem_removeRun hb).1 haa hba
    · exact inv.stageFresh
    · exact inv.refFresh
    · exact inv.destroyedFresh
    · exact inv.destroyedOffStage

theorem inv_teardownSession {s : SessionState} (inv : Inv s) :
    Inv (teardownSession s) := by
  refine ⟨inv.stageLen, inv.refAttached, inv.noneDetached, ?_, ?_,
          inv.stageFresh, inv.refFresh, inv.destroyedFresh, inv.destroyedOffStage⟩
  · intro q hq hqa
    exact absurd (mem_abortAll hq) (by simp [hqa])
  · intro a ha b hb haa hba
    exact absurd (mem_abortAll ha) (by simp [haa])

/-- The invariant is preserved by every controller step. -/
theorem inv_step {s t : SessionState} (inv : Inv s) (h : Step s t) : Inv t := by
  cases h with
  | start name => exact inv_startLoad inv name
  | abortEarly r hr hab => exact inv_resolveAbortedEarly inv r
  | success r settings hr => exact inv_resolveSuccess inv hr settings
  | failure r hr => exact inv_resolveFailure inv hr
  | teardown => exact inv_teardownSession inv

/-- The invariant holds in every reachable session state. -/
theorem reachable_inv {s : SessionState} (h : Reachable s) : Inv s := by
  induction h with
  | init => exact inv_initial
  | step _ hstep ih => exact inv_step ih hstep

/-- Everything the rest of the application can observe of the session:
the surface's child list, the current handle ref, and the React state
the hook exposes (`isLoading`, `error`, `expressions`, `motions`). -/
def observable (s : SessionState) :
    List Nat × Option Nat × Bool × Option String × List String × List MotionEntry :=
  (s.stage, s.modelRef, s.isLoading, s.error, s.expressions, s.motions)

/-- The set of destroyed handles only grows along a step. -/
theorem step_destroyed_mono {s t : SessionState} (h : Step s t) :
    ∀ k ∈ s.destroyed, k ∈ t.destroyed := by
  cases h with
  | start name =>
      intro k hk
      rcases hm : s.modelRef with _ | j <;> simp [startLoad, hm, hk]
  | abortEarly r hr hab =>
      intro k hk
      exact hk
  | success r settings hr =>
      intro k hk
      by_cases hab : r.aborted = true <;>
        simp [resolveSuccess, hab, hk]
  | failure r hr =>
      intro k hk
      by_cases hab : r.aborted = true <;>
        simp [resolveFailure, hab, hk]
  | teardown =>
      intro k hk
      exact hk

/-! ## Pointer-move coalescing (lines 231-239)

`handleMouseMove` cancels any previously scheduled animation frame and
schedules a new one capturing the latest event's client coordinates;
when the frame boundary fires, the container rect is read and the
translated coordinates are forwarded to the captured handle's
`focus`.  The machine records the at-most-one scheduled frame and the
list of forwarded focus calls. -/

/-- State of the rAF throttle: the coordinates captured by the single
scheduled frame callback (if any), and all coordinates forwarded to
`focus` so far, in order. -/
structure PointerState where
  pendingFrame : Option (ℚ × ℚ)
  forwarded : List (ℚ × ℚ)
  deriving Repr, DecidableEq

/-- A `mousemove` event (lines 231-239): if no model is current the
handler returns; otherwise it cancels the scheduled frame (a no-op
when none is scheduled) and schedules a fresh one capturing this
event's client coordinates. -/
def handleMouseMove (hasModel : Bool) (e : ℚ × ℚ) (p : PointerState) : PointerState :=
  if hasModel then { p with pendingFrame := some e } else p

/-- A frame boundary: the scheduled callback (if any) reads the
container rect, translates the captured client coordinates to
surface-local space, and forwards them to `focus`. -/
def frameFire (rectLeft rectTop : ℚ) (p : PointerState) : PointerState :=
  match p.pendingFrame with
  | some e => { pendingFrame := none,
                forwarded := p.forwarded ++ [(e.1 - rectLeft, e.2 - rectTop)] }
  | none => p

theorem movesFold {es : List (ℚ × ℚ)} (p : PointerState) (hne : es ≠ []) :
    es.foldl (fun st e => handleMouseMove true e st) p =
      { pendingFrame := some (es.getLast hne), forwarded := p.forwarded } := by
  induction es generalizing p with
  | nil => exact absurd rfl hne
  | cons e es ih =>
      cases es with
      | nil => rfl
      | cons f fs =>
          rw [List.foldl_cons, ih (handleMouseMove true e p) (by simp)]
          rfl

/-! ## Selection and the dependency-gated load effect (lines 87-88, 217-223)

`selectedModel` is React state; the load effect's dependency list is
`[appReady, selectedModel, loadLive2DModel]`, where `appReady` is
fixed after initialisation and `loadLive2DModel` is a stable callback.
Under React semantics, calling the state setter with a value equal
(by `Object.is`) to the current one bails out, and even on a
re-render an effect whose dependencies are unchanged is not re-run:
a new load run therefore starts exactly when the selected model
changes. -/

/-- The hook state visible to the selection action: the selected model
name together with the session-controller state. -/
structure HookState where
  selectedModel : String
  session : SessionState
  deriving Repr, DecidableEq

/-- Selecting a model: the effect cleanup aborts the superseded run
and a new load starts if and only if the dependency `selectedModel`
actually changed. -/
def selectModel (name : String) (hs : HookState) : HookState :=
  if name = hs.selectedModel then hs
  else { selectedModel := name, session := startLoad name hs.session }

/-- The hook state on mount: default model selected, initial session. -/
def initialHookState : HookState :=
  { selectedModel := DEFAULT_MODEL, session := initialState }

/-! ## Further supporting lemmas -/

theorem abortAll_idem (l : List LoadRun) : abortAll (abortAll l) = abortAll l := by
  induction l with
  | nil => rfl
  | cons r l ih =>
      show ({ r with aborted := true } : LoadRun) :: abortAll (abortAll l)
          = { r with aborted := true } :: abortAll l
      rw [ih]

/-- When every entry carries a (truthy) name, the map-then-filter
extraction is exactly the map of the chosen names. -/
theorem jsFilterTruthy_all_truthy (es : List ExprEntry)
    (hname : ∀ e ∈ es, truthy (jsOrString e.Name e.name) = true) :
    jsFilterTruthy (es.map fun e => jsOrString e.Name e.name)
      = es.map fun e => (jsOrString e.Name e.name).getD "" := by
  induction es with
  | nil => rfl
  | cons e es ih =>
      have ht := hname e (List.mem_cons_self e es)
      have ih2 := ih fun a ha => hname a (List.mem_cons_of_mem e ha)
      rcases hv : jsOrString e.Name e.name with _ | s
      · rw [hv] at ht
        simp [truthy] at ht
      · rw [hv] at ht
        simp only [List.map_cons, jsFilterTruthy, List.filterMap_cons, hv, ht, if_true,
          Option.getD_some] at ih2 ⊢
        rw [ih2]

/-- Reachable state used to witness the claims about in-flight loads:
the default model's load was superseded by a second selection, so the
first run's signal is aborted while the second is still valid. -/
def twoLoadState : SessionState :=
  startLoad "Hiyori" (startLoad "Haru" initialState)

theorem twoLoadState_reachable : Reachable twoLoadState :=
  Reachable.step (Reachable.step Reachable.init (Step.start initialState "Haru"))
    (Step.start (startLoad "Haru" initialState) "Hiyori")

/-! ## Claim theorems -/

/-- C1: at all times during a session, at most one `ModelHandle` is
attached to the `RenderingSurface` — in every reachable session state
the surface's child list has length at most one, i.e. it is empty or
a singleton; the load protocol detaches and destroys any attached
handle before a new one can be attached. -/
theorem at_most_one_handle_attached (s : SessionState) (h : Reachable s) :
    s.stage.length ≤ 1 ∧ (s.stage = [] ∨ ∃ k, s.stage = [k]) := by
  have hlen := (reachable_inv h).stageLen
  refine ⟨hlen, ?_⟩
  cases hs : s.stage with
  | nil => exact Or.inl rfl
  | cons a l =>
      cases l with
      | nil => exact Or.inr ⟨a, rfl⟩
      | cons b l2 =>
          rw [hs] at hlen
          simp at hlen

theorem at_most_one_handle_attached_witness :
    Reachable (resolveSuccess ⟨0, "Haru", false⟩ none (startLoad "Haru" initialState))
    ∧ (resolveSuccess ⟨0, "Haru", false⟩ none (startLoad "Haru" initialState)).stage.length ≤ 1 := by
  have hr : Reachable (resolveSuccess ⟨0, "Haru", false⟩ none (startLoad "Haru" initialState)) :=
    Reachable.step (Reachable.step Reachable.init (Step.start initialState "Haru"))
      (Step.success (startLoad "Haru" initialState) ⟨0, "Haru", false⟩ none (by decide))
  exact ⟨hr, (at_most_one_handle_attached _ hr).1⟩

/-- C2: resolving a load run whose abort signal was invalidated while
the resolution was in flight changes nothing observable: the stage,
the handle ref, `isLoading`, `error`, `expressions` and `motions` are
untouched whether the resolution succeeded, failed, or returned before
obtaining a handle; a successful superseded resolution destroys its
freshly obtained handle without attaching it, and in every reachable
state a destroyed handle is never attached. -/
theorem superseded_resolution_invisible (s : SessionState) (r : LoadRun)
    (settings : Option Live2DSettings) (hreach : Reachable s)
    (_hmem : r ∈ s.pending) (hab : r.aborted = true) :
    observable (resolveSuccess r settings s) = observable s
    ∧ s.nextHandle ∈ (resolveSuccess r settings s).destroyed
    ∧ s.nextHandle ∉ (resolveSuccess r settings s).stage
    ∧ observable (resolveFailure r s) = observable s
    ∧ observable (resolveAbortedEarly r s) = observable s
    ∧ (∀ t, Reachable t → ∀ k ∈ t.destroyed, k ∉ t.stage) := by
  refine ⟨?_, ?_, ?_, ?_, ?_, ?_⟩
  · simp [observable, resolveSuccess, hab]
  · simp [resolveSuccess, hab]
  · simp only [resolveSuccess, hab, if_true]
    intro hc
    exact absurd ((reachable_inv hreach).stageFresh _ hc) (Nat.lt_irrefl _)
  · simp [observable, resolveFailure, hab]
  · simp [observable, resolveAbortedEarly]
  · intro t ht k hk
    exact (reachable_inv ht).destroyedOffStage k hk

theorem superseded_resolution_invisible_witness :
    (⟨0, "Haru", true⟩ : LoadRun) ∈ twoLoadState.pending
    ∧ observable (resolveSuccess ⟨0, "Haru", true⟩ none twoLoadState)
        = observable twoLoadState
    ∧ twoLoadState.nextHandle ∈ (resolveSuccess ⟨0, "Haru", true⟩ none twoLoadState).destroyed := by
  have h := superseded_resolution_invisible twoLoadState ⟨0, "Haru", true⟩ none
    twoLoadState_reachable (by decide) rfl
  exact ⟨by decide, h.1, h.2.1⟩

/-- C3: on successful load with a surface of dimensions `(W, H)` and a
handle of intrinsic dimensions `(w, h)`, the computed scale is
`min(W/w, H/h) * 0.8` and the handle is positioned at
`((W - w*scale)/2, (H - h*scale)/2)` — centering uses the scaled
dimensions, because `model.width` is read again after `scale.set`;
for an 800x600 surface and a 400x800 handle this gives scale `0.6`
and position `(280, 60)`. -/
theorem load_scale_and_center (W H w h : ℚ) :
    (scaleAndCenter W H (freshHandle w h)).scale = min (W / w) (H / h) * (4 / 5)
    ∧ (scaleAndCenter W H (freshHandle w h)).x
        = (W - w * (min (W / w) (H / h) * (4 / 5))) / 2
    ∧ (scaleAndCenter W H (freshHandle w h)).y
        = (H - h * (min (W / w) (H / h) * (4 / 5))) / 2
    ∧ (scaleAndCenter 800 600 (freshHandle 400 800)).scale = 3 / 5
    ∧ (scaleAndCenter 800 600 (freshHandle 400 800)).x = 280
    ∧ (scaleAndCenter 800 600 (freshHandle 400 800)).y = 60 := by
  refine ⟨?_, ?_, ?_, ?_, ?_, ?_⟩
  · simp [scaleAndCenter, freshHandle, HandleGeom.width, HandleGeom.height]
  · simp only [scaleAndCenter, freshHandle, HandleGeom.width, HandleGeom.height, one_mul]
    ring
  · simp only [scaleAndCenter, freshHandle, HandleGeom.width, HandleGeom.height, one_mul]
    ring
  · norm_num [scaleAndCenter, freshHandle, HandleGeom.width, HandleGeom.height, min_def]
  · norm_num [scaleAndCenter, freshHandle, HandleGeom.width, HandleGeom.height, min_def]
  · norm_num [scaleAndCenter, freshHandle, HandleGeom.width, HandleGeom.height, min_def]

/-- C4, counterexample: selecting the already-selected model does NOT
re-run the load protocol.  On the mounted hook state (default model
"Haru" selected), `selectModel "Haru"` leaves the state identical —
in particular no load run is enqueued (`pending` stays empty and the
run counter stays 0) — because the state setter bails out on an
`Object.is`-equal value and the load effect's dependencies are
unchanged. -/
theorem select_same_model_skips_reload :
    selectModel "Haru" initialHookState = initialHookState
    ∧ initialHookState.selectedModel = "Haru"
    ∧ (selectModel "Haru" initialHookState).session.pending = []
    ∧ (selectModel "Haru" initialHookState).session.nextRun = 0 := by
  refine ⟨?_, rfl, ?_, ?_⟩ <;> decide

/-- C4, amended: `selectModel` is dependency-gated rather than
idempotence-free: selecting the already-selected model is a no-op (the
load effect does not re-run), while selecting a different model always
starts a fresh load run for it. -/
theorem select_model_dependency_gated (hs : HookState) (name : String) :
    (name = hs.selectedModel → selectModel name hs = hs)
    ∧ (name ≠ hs.selectedModel →
        (selectModel name hs).selectedModel = name
        ∧ (selectModel name hs).session = startLoad name hs.session
        ∧ (⟨hs.session.nextRun, name, false⟩ : LoadRun)
            ∈ (selectModel name hs).session.pending) := by
  constructor
  · intro h
    simp [selectModel, h]
  · intro h
    refine ⟨?_, ?_, ?_⟩ <;> simp [selectModel, h, startLoad]

theorem select_model_dependency_gated_witness :
    selectModel "Haru" initialHookState = initialHookState
    ∧ (selectModel "Hiyori" initialHookState).session
        = startLoad "Hiyori" initialHookState.session :=
  ⟨(select_model_dependency_gated initialHookState "Haru").1 rfl,
   ((select_model_dependency_gated initialHookState "Hiyori").2 (by decide)).2.1⟩

/-- C5: a load run that fails with its signal still valid clears the
capability lists, sets the error to a message that contains the failed
model identifier, clears `isLoading`, and leaves the controller
usable: a subsequent load of another identifier can still resolve
successfully, attaching a fresh handle with no error and `isLoading`
false. -/
theorem load_failure_localized (s : SessionState) (r : LoadRun)
    (_hmem : r ∈ s.pending) (hact : r.aborted = false) :
    (resolveFailure r s).expressions = []
    ∧ (resolveFailure r s).motions = []
    ∧ (resolveFailure r s).error = some (failMessage r.modelName)
    ∧ (∃ pre post, failMessage r.modelName = pre ++ r.modelName ++ post)
    ∧ (resolveFailure r s).isLoading = false
    ∧ ∀ (name : String) (settings : Option Live2DSettings),
        (⟨(resolveFailure r s).nextRun, name, false⟩ : LoadRun)
            ∈ (startLoad name (resolveFailure r s)).pending
        ∧ (resolveSuccess ⟨(resolveFailure r s).nextRun, name, false⟩ settings
              (startLoad name (resolveFailure r s))).modelRef
            = some (resolveFailure r s).nextHandle
        ∧ (resolveSuccess ⟨(resolveFailure r s).nextRun, name, false⟩ settings
              (startLoad name (resolveFailure r s))).isLoading = false
        ∧ (resolveSuccess ⟨(resolveFailure r s).nextRun, name, false⟩ settings
              (startLoad name (resolveFailure r s))).error = none := by
  refine ⟨?_, ?_, ?_, ?_, ?_, ?_⟩
  · simp [resolveFailure, hact]
  · simp [resolveFailure, hact]
  · simp [resolveFailure, hact]
  · exact ⟨"Failed to load \"",
      "\". The model may require a newer Cubism SDK version.", rfl⟩
  · simp [resolveFailure, hact]
  · intro name settings
    refine ⟨?_, ?_, ?_, ?_⟩ <;>
      simp [resolveFailure, resolveSuccess, startLoad, hact]

theorem load_failure_localized_witness :
    (⟨0, "Ghost", false⟩ : LoadRun) ∈ (startLoad "Ghost" initialState).pending
    ∧ (resolveFailure ⟨0, "Ghost", false⟩ (startLoad "Ghost" initialState)).error
        = some (failMessage "Ghost")
    ∧ (resolveFailure ⟨0, "Ghost", false⟩ (startLoad "Ghost" initialState)).isLoading = false
    ∧ (resolveSuccess ⟨0, "Haru", false⟩ none
          (startLoad "Haru" (resolveFailure ⟨0, "Ghost", false⟩
            (startLoad "Ghost" initialState)))).modelRef = some 0 := by
  have h := load_failure_localized (startLoad "Ghost" initialState)
    ⟨0, "Ghost", false⟩ (by decide) rfl
  exact ⟨by decide, h.2.2.1, h.2.2.2.2.1, (h.2.2.2.2.2 "Haru" none).2.1⟩

/-- C6: the capability extractor is a pure function of the settings.
With N expression entries each carrying a name under one of the two
field casings (the canonical `Name` preferred, `name` the fallback),
it yields exactly the N chosen names in input order with no
deduplication; a motions map with groups A -> two items and
B -> one item yields, in the map's own key order, exactly
(A,0,"A #1"), (A,1,"A #2"), (B,0,"B #1"). -/
theorem capability_extraction_roundtrip (es : List ExprEntry)
    (m : Option (List (String × List Unit)))
    (hname : ∀ e ∈ es, truthy (jsOrString e.Name e.name) = true) :
    extractExpressions (some { expressions := some es, motions := m })
        = es.map (fun e => (jsOrString e.Name e.name).getD "")
    ∧ (extractExpressions (some { expressions := some es, motions := m })).length
        = es.length
    ∧ extractMotions
        (some { expressions := some es,
                motions := some [("A", [(), ()]), ("B", [()])] })
        = [⟨"A", "A #1", 0⟩, ⟨"A", "A #2", 1⟩, ⟨"B", "B #1", 0⟩] := by
  have key : extractExpressions (some { expressions := some es, motions := m })
      = es.map (fun e => (jsOrString e.Name e.name).getD "") := by
    simp only [extractExpressions, Option.bind_some, Option.getD_some]
    exact jsFilterTruthy_all_truthy es hname
  refine ⟨key, ?_, ?_⟩
  · rw [key, List.length_map]
  · rfl

theorem capability_extraction_roundtrip_witness :
    extractExpressions
        (some { expressions := some [⟨some "angry", none⟩, ⟨none, some "smile"⟩],
                motions := none })
      = ["angry", "smile"] := by
  have h := capability_extraction_roundtrip
    [⟨some "angry", none⟩, ⟨none, some "smile"⟩] none (by decide)
  rw [h.1]
  rfl

/-- C7: tearing the session down twice has the same observable effect
as tearing it down once — the second invocation finds the surface ref
already null and every signal already aborted, so it changes nothing
and releases nothing a second time. -/
theorem teardown_idempotent (s : SessionState) :
    teardownSession (teardownSession s) = teardownSession s := by
  simp only [teardownSession, abortAll_idem]

/-- C8: pointer-move forwarding is coalesced to at most one gaze
update per frame.  For any non-empty burst of move events arriving
before the frame boundary, the boundary forwards exactly the last
event's coordinates translated to surface-local space, and the
translated coordinates of any earlier event of the burst (when they
differ from the last one's) are never forwarded by that frame. -/
theorem pointer_move_coalesced (p : PointerState) (es : List (ℚ × ℚ))
    (rectLeft rectTop : ℚ) (hne : es ≠ []) :
    (frameFire rectLeft rectTop
        (es.foldl (fun st e => handleMouseMove true e st) p)).forwarded
      = p.forwarded
          ++ [((es.getLast hne).1 - rectLeft, (es.getLast hne).2 - rectTop)]
    ∧ ∀ e ∈ es,
        (e.1 - rectLeft, e.2 - rectTop)
            ≠ ((es.getLast hne).1 - rectLeft, (es.getLast hne).2 - rectTop) →
        (e.1 - rectLeft, e.2 - rectTop) ∉
          ((frameFire rectLeft rectTop
              (es.foldl (fun st e => handleMouseMove true e st) p)).forwarded.drop
            p.forwarded.length) := by
  have h1 := movesFold p hne
  rw [h1]
  constructor
  · rfl
  · intro e _ hne2
    show (e.1 - rectLeft, e.2 - rectTop) ∉
      ((p.forwarded
          ++ [((es.getLast hne).1 - rectLeft, (es.getLast hne).2 - rectTop)]).drop
        p.forwarded.length)
    rw [List.drop_left]
    simp only [List.mem_singleton]
    exact hne2

theorem pointer_move_coalesced_witness :
    (frameFire 1 2
        (([((10 : ℚ), (20 : ℚ)), (30, 40)]).foldl
          (fun st e => handleMouseMove true e st) ⟨none, []⟩)).forwarded
      = [(29, 38)] := by
  have h := pointer_move_coalesced ⟨none, []⟩ [(10, 20), (30, 40)] 1 2 (by simp)
  rw [h.1]
  norm_num

/-- C9: a handle whose settings contain neither an expressions field
nor a motions field yields an empty expression list and an empty
motion list, with no error raised (both extractors are total). -/
theorem missing_settings_fields_empty (st : Live2DSettings)
    (he : st.expressions = none) (hm : st.motions = none) :
    extractExpressions (some st) = [] ∧ extractMotions (some st) = [] := by
  constructor
  · simp [extractExpressions, he, jsFilterTruthy]
  · simp [extractMotions, hm]

theorem missing_settings_fields_empty_witness :
    extractExpressions (some { expressions := none, motions := none }) = []
    ∧ extractMotions (some { expressions := none, motions := none }) = [] :=
  missing_settings_fields_empty { expressions := none, motions := none } rfl rfl

/-- C10: an expression entry whose canonical `Name` field holds the
empty string falls back to the alternate `name` field, and an entry
whose selected value is absent or empty is silently dropped, so the
extracted list can be strictly shorter than the settings' expression
list even though every entry has a name field present: three entries,
all with `Name` present (empty), extract to the single fallback
name. -/
theorem expression_fallback_and_dropping :
    extractExpressions
        (some { expressions :=
                  some [⟨some "", some "fallback"⟩, ⟨some "", some ""⟩, ⟨some "", none⟩],
                motions := none })
      = ["fallback"]
    ∧ ([(⟨some "", some "fallback"⟩ : ExprEntry), ⟨some "", some ""⟩,
        ⟨some "", none⟩].length = 3)
    ∧ (∀ e ∈ [(⟨some "", some "fallback"⟩ : ExprEntry), ⟨some "", some ""⟩,
        ⟨some "", none⟩], e.Name ≠ none)
    ∧ extractExpressions
        (some { expressions := some [⟨some "", some "n"⟩],
                motions := none })
      = ["n"] := by
  refine ⟨?_, rfl, ?_, ?_⟩ <;> decide

end Live2D
